import Mathlib

/-!
# Verification of the OpenFactory asset-serving layer

Shallow embedding, in Lean 4, of the routing layer, the streaming
dispatcher and the stream endpoint of the `openfactory-asset-api`
repository, together with proofs of the specification claims about them.

Conventions of the embedding:

* The fan-out index (`subscriptions` in
  `stream_api/non_replicated/app/core/kafka_dispatcher.py`) is an
  association list from asset identifiers to lists of subscriber-queue
  identifiers; queue objects are identified by natural numbers.  Python
  dictionaries have pairwise distinct keys, which appears as a `Nodup`
  hypothesis where it matters.
* The body of the dispatcher polling loop is embedded as a function from
  the fan-out index and the polled message to the list of observable
  events the dispatcher thread performs in program order: fire-and-forget
  `schedulePut` calls and the synchronous offset `commit`.  Completions
  of the scheduled puts happen on the event loop and appear as separate
  `putComplete` events, constrained only to follow their scheduling.
* External collaborators (registry, deployment backend, upstream state
  API) are parameters of the embedded functions, one parameter per call
  the Python code makes.
-/

namespace OpenFactory

/-! ## Streaming dispatcher (`kafka_dispatcher.py`)

`KafkaDispatcher.start` polls messages; for each message it computes
`asset_uuid = msg.key().decode() if msg.key() else ""`, looks the key up
in the global `subscriptions` map with `.get` (no default insertion),
and `if queues:` calls
`asyncio.run_coroutine_threadsafe(q.put(value), self.loop)` for every
queue — a fire-and-forget scheduling whose returned future is discarded
— and then immediately issues `consumer.commit(..., asynchronous=False)`
on the dispatcher thread.  The scheduled `q.put` coroutines complete
later on the event loop (or never, when a bounded queue stays full), so
the commit is *not* ordered after the completion of the enqueues.  The
embedding separates the dispatcher thread's own events (`schedulePut`,
`commit`, in program order) from the event-loop-side completions
(`putComplete`), which are constrained only to follow their scheduling.
The fan-out index maps asset uuids to lists of queues; queues are
identified here by `Nat`. -/

/-- The fan-out index: asset uuid to the ordered list of subscriber
queue identifiers, as an association list (a Python `dict`). -/
abbrev Subscriptions := List (String × List Nat)

/-- `subscriptions.get(k)` followed by the `if queues:` truthiness test:
the list of queues registered under `k`, `[]` when the key is absent. -/
def subsGet (subs : Subscriptions) (k : String) : List Nat :=
  match subs.find? (fun p => p.1 = k) with
  | some p => p.2
  | none => []

/-- Observable events of one poll iteration.  `schedulePut q v` is the
dispatcher thread's `run_coroutine_threadsafe(q.put(v), loop)` call
(fire-and-forget, future discarded); `commit` is its synchronous offset
commit; `putComplete q v` is the later completion of the scheduled
`q.put(v)` on the event loop — an event of the loop, never of the
dispatcher thread. -/
inductive DispatchEvent where
  | schedulePut (q : Nat) (v : String)
  | commit
  | putComplete (q : Nat) (v : String)
  deriving DecidableEq, Repr

/-- `asset_uuid = msg.key().decode("utf-8") if msg.key() else ""`. -/
def assetKeyOf (key : Option String) : String :=
  match key with
  | some k => k
  | none => ""

/-- Embedding of the body of the polling loop of `KafkaDispatcher.start`
for one polled message with key `key` and decoded value `value`: the
events the *dispatcher thread* performs, in program order.  The queue
list is looked up with `subscriptions.get`; when it is non-empty the put
of the value is scheduled (fire-and-forget) on every queue and then the
offset is committed; otherwise nothing happens.  No `putComplete` event
belongs to this list: the thread discards the futures and never awaits
the puts. -/
def dispatchMsg (subs : Subscriptions) (key : Option String) (value : String) :
    List DispatchEvent :=
  let asset_uuid := assetKeyOf key
  let queues := subsGet subs asset_uuid
  if queues.isEmpty then []
  else queues.map (fun q => DispatchEvent.schedulePut q value) ++ [DispatchEvent.commit]

end OpenFactory

namespace OpenFactory

/-- The dispatcher thread's event list is either empty or the
schedulings of every registered queue followed by the commit. -/
theorem dispatchMsg_eq (subs : Subscriptions) (key : Option String) (value : String) :
    dispatchMsg subs key value = [] ∨
      dispatchMsg subs key value =
        (subsGet subs (assetKeyOf key)).map (fun q => DispatchEvent.schedulePut q value) ++
          [DispatchEvent.commit] := by
  unfold dispatchMsg
  by_cases h : (subsGet subs (assetKeyOf key)).isEmpty <;> simp [h]

/-- `l₁` occurs inside `l₂` in order (order-preserving occurrence). -/
def sublistB : List DispatchEvent → List DispatchEvent → Bool
  | [], _ => true
  | _ :: _, [] => false
  | a :: l1, b :: l2 => if a = b then sublistB l1 l2 else sublistB (a :: l1) l2

/-- `t` is a trace the program admits for one poll iteration of the
message `(key, value)` against fan-out state `subs`:

* the dispatcher thread's events (`dispatchMsg`) occur in `t` in their
  program order;
* every other event of `t` is the completion of a put that the thread
  actually scheduled, and occurs after (some) scheduling of that put.

Nothing constrains a completion to precede the `commit`: the thread
discards the futures returned by `run_coroutine_threadsafe` and commits
without awaiting them. -/
def validPollTrace (subs : Subscriptions) (key : Option String) (value : String)
    (t : List DispatchEvent) : Bool :=
  sublistB (dispatchMsg subs key value) t &&
  t.all (fun e =>
    (dispatchMsg subs key value).contains e ||
      (match e with
       | DispatchEvent.putComplete q v =>
           (dispatchMsg subs key value).contains (DispatchEvent.schedulePut q v)
       | _ => false)) &&
  (List.range t.length).all (fun i =>
    match t.get? i with
    | some (DispatchEvent.putComplete q v) =>
        (List.range i).any (fun j => t.get? j = some (DispatchEvent.schedulePut q v))
    | _ => true)

/-- **C1.** The claim — the offset commit is issued only after the
message value has been enqueued on every registered subscriber queue, a
commit never preceding the completion of those enqueues — is what the
module's docstring promises ("Messages are … only marked as done
(offset committed) after dispatch, ensuring reliable delivery") but not
what the code does: at the failing input (one subscriber queue `7`
registered for key `"a"`), the dispatcher thread's own event sequence
is exactly `[schedulePut 7 v, commit]` — it contains no completion at
all, the commit being issued right after the fire-and-forget
schedulings — and the program admits the trace
`[schedulePut 7 v, commit, putComplete 7 v]`, in which the commit
(position 1) precedes the completion of the enqueue (position 2). -/
theorem commit_before_enqueue_completion :
    dispatchMsg [("a", [7])] (some "a") "v" =
      [DispatchEvent.schedulePut 7 "v", DispatchEvent.commit] ∧
    (∀ q v, DispatchEvent.putComplete q v ∉ dispatchMsg [("a", [7])] (some "a") "v") ∧
    validPollTrace [("a", [7])] (some "a") "v"
      [DispatchEvent.schedulePut 7 "v", DispatchEvent.commit,
        DispatchEvent.putComplete 7 "v"] = true ∧
    ([DispatchEvent.schedulePut 7 "v", DispatchEvent.commit,
        DispatchEvent.putComplete 7 "v"].get? 1 = some DispatchEvent.commit ∧
      [DispatchEvent.schedulePut 7 "v", DispatchEvent.commit,
        DispatchEvent.putComplete 7 "v"].get? 2 =
          some (DispatchEvent.putComplete 7 "v")) := by
  refine ⟨by decide, ?_, by decide, by decide, by decide⟩
  intro q v
  unfold dispatchMsg
  simp [subsGet, assetKeyOf]

/-- **C2, counterexample.** The claim says a message whose key has no
registered subscriber queues is dropped *and still committed*.  On the
code it is not: with an empty fan-out index, the loop body for a message
with key `"a"` performs no event at all — in particular no `commit`
(`subscriptions.get` yields nothing, the `if queues:` guard fails, and
the `commit` call is inside that guard). -/
theorem no_subscriber_no_commit_counterexample :
    DispatchEvent.commit ∉ dispatchMsg [] (some "a") "v" := by
  decide

/-- **C2, amended.** For every polled message whose asset key has no
subscriber queues registered in the fan-out index, the dispatcher drops
the message (enqueues it nowhere) and does *not* commit its offset: the
loop body performs no event. -/
theorem no_subscriber_drops_without_commit (subs : Subscriptions)
    (key : Option String) (value : String)
    (h : subsGet subs (assetKeyOf key) = []) :
    dispatchMsg subs key value = [] := by
  unfold dispatchMsg
  simp [h]

/-- Concrete instantiation of `no_subscriber_drops_without_commit`: a
fan-out index holding only asset `"b"` drops a message keyed `"a"`
without committing. -/
theorem no_subscriber_drops_without_commit_witness :
    dispatchMsg [("b", [3])] (some "a") "v" = [] :=
  no_subscriber_drops_without_commit [("b", [3])] (some "a") "v" (by decide)

/-- **C10.** A polled message whose Kafka key is missing (`None`) is not
skipped: the dispatcher treats its asset identifier as the empty string,
so the loop body behaves exactly as for an explicit `""` key, fanning
the value out to the queues registered under `""` and committing the
offset whenever that queue list is non-empty. -/
theorem none_key_as_empty_string (subs : Subscriptions) (value : String) :
    dispatchMsg subs none value = dispatchMsg subs (some "") value ∧
      (subsGet subs "" ≠ [] →
        dispatchMsg subs none value =
          (subsGet subs "").map (fun q => DispatchEvent.schedulePut q value) ++
            [DispatchEvent.commit]) := by
  constructor
  · rfl
  · intro h
    unfold dispatchMsg
    simp [assetKeyOf, h]

/-- Concrete instantiation of `none_key_as_empty_string`: with queue `5`
registered under the empty-string key, a `None`-keyed message is
enqueued on it and committed. -/
theorem none_key_as_empty_string_witness :
    dispatchMsg [("", [5])] none "v" = dispatchMsg [("", [5])] (some "") "v" ∧
      dispatchMsg [("", [5])] none "v" =
        [DispatchEvent.schedulePut 5 "v", DispatchEvent.commit] := by
  have h := none_key_as_empty_string [("", [5])] "v"
  exact ⟨h.1, by rw [h.2 (by decide)]; decide⟩

/-! ## Stream endpoint cleanup (`asset_stream.py`)

The `finally` block of `event_generator` runs on every exit path of the
streaming loop (client disconnect or error):

    if queue in subscriptions.get(asset_uuid, []):
        subscriptions[asset_uuid].remove(queue)
    if not subscriptions.get(asset_uuid):
        subscriptions.pop(asset_uuid, None)

`list.remove` deletes the first occurrence; `pop` removes the key when
its list is empty or absent. -/

/-- Python `list.remove(q)`: delete the first occurrence of `q`. -/
def removeFirst (l : List Nat) (q : Nat) : List Nat :=
  match l with
  | [] => []
  | x :: xs => if x = q then xs else x :: removeFirst xs q

/-- Embedding of the `finally` block of `event_generator`: unregister
queue `q` from the entry of `asset`, then drop the key when its list has
become empty (or was absent). -/
def streamCleanup (subs : Subscriptions) (asset : String) (q : Nat) : Subscriptions :=
  let subs' :=
    if q ∈ subsGet subs asset then
      subs.map (fun p => if p.1 = asset then (p.1, removeFirst p.2 q) else p)
    else subs
  if subsGet subs' asset = [] then subs'.filter (fun p => p.1 ≠ asset) else subs'

theorem removeFirst_of_not_mem (l : List Nat) (q : Nat) (h : q ∉ l) :
    removeFirst l q = l := by
  induction l with
  | nil => rfl
  | cons x xs ih =>
    simp only [List.mem_cons, not_or] at h
    simp [removeFirst, Ne.symm h.1, ih h.2]

theorem not_mem_removeFirst (l : List Nat) (q : Nat) (h : l.count q ≤ 1) :
    q ∉ removeFirst l q := by
  induction l with
  | nil => simp [removeFirst]
  | cons x xs ih =>
    by_cases hx : x = q
    · subst hx
      rw [List.count_cons_self] at h
      have : xs.count x = 0 := by omega
      simp [removeFirst, List.count_eq_zero.mp this]
    · rw [List.count_cons_of_ne (by exact fun hq => hx hq.symm)] at h
      simp [removeFirst, hx]
      exact ⟨fun hq => hx hq.symm, ih h⟩

/-- With pairwise-distinct keys, `subsGet` on the entry-wise updated map
is the update of `subsGet`. -/
theorem subsGet_map_update (subs : Subscriptions) (asset : String)
    (f : List Nat → List Nat) (hnd : (subs.map Prod.fst).Nodup) :
    subsGet (subs.map (fun p => if p.1 = asset then (p.1, f p.2) else p)) asset =
      (match subs.find? (fun p => p.1 = asset) with
       | some p => f p.2
       | none => []) := by
  induction subs with
  | nil => rfl
  | cons hd tl ih =>
    simp only [List.map_cons, List.nodup_cons] at hnd
    by_cases hk : hd.1 = asset
    · simp [subsGet, List.find?_cons, hk]
    · have ihe := ih hnd.2
      simp only [subsGet] at ihe ⊢
      rw [List.map_cons, if_neg hk, List.find?_cons_of_neg _ (by simp [hk]),
          List.find?_cons_of_neg _ (by simp [hk])]
      exact ihe

/-- **C5.** On every exit path of a stream connection's loop the
`finally` cleanup removes the connection's queue from the fan-out entry
of the asset it subscribed to, and removes the asset key itself when its
subscriber list becomes empty; afterwards no entry of the index refers
to the queue.  Hypotheses: the index has distinct keys (a `dict`), the
queue occurs at most once under its asset and nowhere else (each
connection registers exactly one fresh queue). -/
theorem streamCleanup_no_reference (subs : Subscriptions) (asset : String) (q : Nat)
    (hnd : (subs.map Prod.fst).Nodup)
    (honly : ∀ p ∈ subs, p.1 ≠ asset → q ∉ p.2)
    (hcnt : (subsGet subs asset).count q ≤ 1) :
    (∀ p ∈ streamCleanup subs asset q, q ∉ p.2) ∧
      (removeFirst (subsGet subs asset) q = [] →
        ∀ p ∈ streamCleanup subs asset q, p.1 ≠ asset) := by
  have hments : ∀ p ∈ streamCleanup subs asset q,
      (p.1 = asset → p.2 = removeFirst (subsGet subs asset) q ∨
        (q ∉ subsGet subs asset ∧ p.2 = subsGet subs asset)) ∧
      (p.1 ≠ asset → p ∈ subs) := by
    intro p hp
    unfold streamCleanup at hp
    by_cases hmem : q ∈ subsGet subs asset
    · simp only [if_pos hmem] at hp
      have hp' : p ∈ subs.map (fun p => if p.1 = asset then (p.1, removeFirst p.2 q) else p) := by
        by_cases hemp : subsGet (subs.map
            (fun p => if p.1 = asset then (p.1, removeFirst p.2 q) else p)) asset = []
        · rw [if_pos hemp] at hp; exact (List.mem_filter.mp hp).1
        · rw [if_neg hemp] at hp; exact hp
      obtain ⟨p₀, hp₀, hpe⟩ := List.mem_map.mp hp'
      constructor
      · intro hpa
        left
        by_cases h₀ : p₀.1 = asset
        · rw [if_pos h₀] at hpe
          have hfind : subs.find? (fun p => p.1 = asset) = some p₀ := by
            rcases hf : subs.find? (fun p => p.1 = asset) with _ | pf
            · exfalso
              have := List.find?_eq_none.mp hf p₀ hp₀
              simp [h₀] at this
            · have hpf : pf ∈ subs := List.mem_of_find?_eq_some hf
              have hpfa : pf.1 = asset := by
                have := List.find?_some hf
                simpa using this
              have heq : pf = p₀ := by
                have hinj := List.inj_on_of_nodup_map hnd
                exact hinj (List.mem_of_find?_eq_some hf) hp₀ (by rw [hpfa, h₀])
              rw [hf, heq]
          have : subsGet subs asset = p₀.2 := by simp [subsGet, hfind]
          rw [this, ← hpe]
        · rw [if_neg h₀] at hpe
          exact absurd (hpe ▸ hpa) h₀
      · intro hpa
        by_cases h₀ : p₀.1 = asset
        · rw [if_pos h₀] at hpe
          exact absurd (by rw [← hpe] at hpa; simpa using (h₀ ▸ hpa)) (by simp [← hpe, h₀])
        · rw [if_neg h₀] at hpe; exact hpe ▸ hp₀
    · simp only [if_neg hmem] at hp
      have hp' : p ∈ subs := by
        by_cases hemp : subsGet subs asset = []
        · rw [if_pos hemp] at hp; exact (List.mem_filter.mp hp).1
        · rw [if_neg hemp] at hp; exact hp
      constructor
      · intro hpa
        right
        refine ⟨hmem, ?_⟩
        -- with distinct keys the entry with key `asset` is unique, hence `p`
        rcases hf : subs.find? (fun r => r.1 = asset) with _ | pf
        · exfalso
          have := List.find?_eq_none.mp hf p hp'
          simp [hpa] at this
        · have hpfa : pf.1 = asset := by
            have := List.find?_some hf
            simpa using this
          have hpe : pf = p := by
            have hinj := List.inj_on_of_nodup_map hnd
            exact hinj (List.mem_of_find?_eq_some hf) hp' (by rw [hpfa, hpa])
          simp [subsGet, hf, hpe]
      · intro _; exact hp'
  constructor
  · intro p hp
    rcases eq_or_ne p.1 asset with hpa | hpa
    · rcases (hments p hp).1 hpa with h | ⟨hq, h⟩
      · rw [h]; exact not_mem_removeFirst _ _ hcnt
      · rw [h]; exact hq
    · exact honly p ((hments p hp).2 hpa) hpa
  · intro hempty p hp hpa
    -- show the second `if` of the cleanup fired and filtered the key out
    unfold streamCleanup at hp
    by_cases hmem : q ∈ subsGet subs asset
    · simp only [if_pos hmem] at hp
      have hget : subsGet (subs.map
          (fun p => if p.1 = asset then (p.1, removeFirst p.2 q) else p)) asset = [] := by
        rw [show (fun p : String × List Nat => if p.1 = asset then (p.1, removeFirst p.2 q) else p) =
            (fun p : String × List Nat =>
              if p.1 = asset then (p.1, (fun l => removeFirst l q) p.2) else p) from rfl]
        rw [subsGet_map_update subs asset (fun l => removeFirst l q) hnd]
        rcases hf : subs.find? (fun p => p.1 = asset) with _ | pf
        · rw [hf]
        · rw [hf]
          show removeFirst pf.2 q = []
          have hv : subsGet subs asset = pf.2 := by simp [subsGet, hf]
          rw [← hv]
          exact hempty
      rw [if_pos hget] at hp
      have := (List.mem_filter.mp hp).2
      simp [hpa] at this
    · simp only [if_neg hmem] at hp
      have hget : subsGet subs asset = [] := by
        have := removeFirst_of_not_mem (subsGet subs asset) q hmem
        rw [← this]; exact hempty
      rw [if_pos hget] at hp
      have := (List.mem_filter.mp hp).2
      simp [hpa] at this

/-- Concrete instantiation of `streamCleanup_no_reference`: removing
queue `9`, the sole subscriber of asset `"a"`, leaves an index with no
reference to queue `9` and no `"a"` key. -/
theorem streamCleanup_no_reference_witness :
    (∀ p ∈ streamCleanup [("a", [9]), ("b", [4])] "a" 9, 9 ∉ p.2) ∧
      ∀ p ∈ streamCleanup [("a", [9]), ("b", [4])] "a" 9, p.1 ≠ "a" := by
  have h := streamCleanup_no_reference [("a", [9]), ("b", [4])] "a" 9
    (by decide) (by decide) (by decide)
  exact ⟨h.1, h.2 (by decide)⟩

/-! ## Routing controller (`routing_controller.py`)

`handle_client_request` asks the grouping strategy for the asset's
group; `if not group or group == 'UNAVAILABLE': return None` (Python's
`not` also rejects the empty string, but the spec's `GroupName` is a
non-empty string); otherwise it returns
`deployment_platform.get_service_url(group)`. -/

/-- Embedding of `RoutingController.handle_client_request`.
`get_group` stands for `grouping_strategy.get_group_for_asset` and
`get_service_url` for `deployment_platform.get_service_url`. -/
def handle_client_request (get_group : String → Option String)
    (get_service_url : String → String) (asset_uuid : String) : Option String :=
  match get_group asset_uuid with
  | none => none
  | some g => if g = "" ∨ g = "UNAVAILABLE" then none else some (get_service_url g)

/-- **C3.** Over the spec's data model (`GroupName` is a non-empty
string, so the registry never reports `some ""`), the route operation
returns `none` exactly when the registry reports no group or the literal
`"UNAVAILABLE"`, and in every other case returns the deployment
backend's service URL for the reported group. -/
theorem handle_client_request_spec (get_group : String → Option String)
    (get_service_url : String → String) (asset_uuid : String)
    (hne : get_group asset_uuid ≠ some "") :
    (handle_client_request get_group get_service_url asset_uuid = none ↔
      get_group asset_uuid = none ∨ get_group asset_uuid = some "UNAVAILABLE") ∧
    (∀ g, get_group asset_uuid = some g → g ≠ "UNAVAILABLE" →
      handle_client_request get_group get_service_url asset_uuid =
        some (get_service_url g)) := by
  unfold handle_client_request
  rcases hg : get_group asset_uuid with _ | g
  · simp
  · rw [hg] at hne
    have hge : g ≠ "" := fun h => hne (by rw [h])
    constructor
    · by_cases hu : g = "UNAVAILABLE" <;> simp [hu, hge]
    · intro g' hg' hu
      have : g' = g := (Option.some.inj hg').symm
      subst this
      simp [hge, hu]

/-- Concrete instantiation of `handle_client_request_spec`: the group
`"wc1"` routes to its service URL, a registry answering `none` or
`"UNAVAILABLE"` routes to `none`. -/
theorem handle_client_request_spec_witness :
    handle_client_request (fun _ => some "wc1") (fun g => "http://svc-" ++ g) "A" =
      some "http://svc-wc1" ∧
    handle_client_request (fun _ => some "UNAVAILABLE") (fun g => "http://svc-" ++ g) "A" =
      none ∧
    handle_client_request (fun _ => none) (fun g => "http://svc-" ++ g) "A" = none := by
  refine ⟨?_, ?_, ?_⟩
  · exact (handle_client_request_spec (fun _ => some "wc1") (fun g => "http://svc-" ++ g)
      "A" (by simp)).2 "wc1" rfl (by simp)
  · exact (handle_client_request_spec (fun _ => some "UNAVAILABLE")
      (fun g => "http://svc-" ++ g) "A" (by simp)).1.mpr (Or.inr rfl)
  · exact (handle_client_request_spec (fun _ => none)
      (fun g => "http://svc-" ++ g) "A" (by simp)).1.mpr (Or.inl rfl)

/-! ## Front-end query-parameter whitelists (`router_asset.py`,
`router_asset_state.py`)

Both endpoints filter the incoming request's query parameters against a
hard-coded whitelist before building the downstream URL; the query
string of the forwarded URL is `urlencode` of the filtered mapping. -/

/-- Whitelist of `/asset_stream` (`router_asset.py`). -/
def allowed_params_stream : List String := ["asset_uuid", "id", "start_time", "end_time"]

/-- Whitelist of `/asset_state` (`router_asset_state.py`). -/
def allowed_params_state : List String :=
  ["asset_uuid", "id", "start_time", "end_time", "granularity"]

/-- `{k: v for k, v in request.query_params.items() if k in allowed_params}`. -/
def filterParams (allowed : List String) (params : List (String × String)) :
    List (String × String) :=
  params.filter (fun p => allowed.contains p.1)

/-- `urlencode` of a parameter mapping (percent-encoding elided: the
embedding only reasons about which keys appear). -/
def urlencode (params : List (String × String)) : String :=
  String.intercalate "&" (params.map (fun p => p.1 ++ "=" ++ p.2))

/-- Downstream URL built by `route_asset_stream`. -/
def asset_stream_forward_url (target_url : String) (params : List (String × String)) :
    String :=
  let query_string := urlencode (filterParams allowed_params_stream params)
  if query_string ≠ "" then target_url ++ "/asset_stream?" ++ query_string else target_url

/-- Downstream URL built by `route_asset_state`. -/
def asset_state_forward_url (target_base_url : String) (params : List (String × String)) :
    String :=
  let query_string := urlencode (filterParams allowed_params_state params)
  let full_url := target_base_url ++ "/asset_state"
  if query_string ≠ "" then full_url ++ "?" ++ query_string else full_url

/-- **C4.** The query mapping from which the forwarded URL of either
endpoint is built contains only whitelisted keys: every request
parameter outside the respective whitelist is absent from the filtered
mapping (and hence from the `urlencode`d query string of the URL). -/
theorem forwarded_params_whitelisted (params : List (String × String)) :
    (∀ p ∈ filterParams allowed_params_stream params, p.1 ∈ allowed_params_stream) ∧
    (∀ p ∈ filterParams allowed_params_state params, p.1 ∈ allowed_params_state) ∧
    (∀ k v, k ∉ allowed_params_stream →
      (k, v) ∉ filterParams allowed_params_stream params) ∧
    (∀ k v, k ∉ allowed_params_state →
      (k, v) ∉ filterParams allowed_params_state params) := by
  refine ⟨?_, ?_, ?_, ?_⟩ <;>
    first
      | (intro p hp
         have := (List.mem_filter.mp hp).2
         simpa using this)
      | (intro k v hk hp
         have := (List.mem_filter.mp hp).2
         simp at this
         exact hk this)

/-- Concrete instantiation of `forwarded_params_whitelisted`: a request
carrying an extra `evil` parameter forwards only the whitelisted ones. -/
theorem forwarded_params_whitelisted_witness :
    ("evil", "1") ∉ filterParams allowed_params_stream
        [("asset_uuid", "A"), ("evil", "1")] ∧
      filterParams allowed_params_stream [("asset_uuid", "A"), ("evil", "1")] =
        [("asset_uuid", "A")] := by
  refine ⟨?_, by decide⟩
  exact (forwarded_params_whitelisted [("asset_uuid", "A"), ("evil", "1")]).2.2.1
    "evil" "1" (by decide)

/-! ## Readiness aggregation (`RoutingController.is_ready`, `main.py`)

`is_ready` builds an `issues` dict: the grouping strategy contributes
under key `"grouping_strategy"`, every deployed group instance under
`"service:<group>"`, the state API probe under `"state_api"` (status 404
→ "No /ready endpoint defined", other non-200 → "Status code <c>", 200
with a JSON `status` field other than `"ready"` → "Reported not ready",
transport error → "<url> not reachable: <e>").  It returns
`(len(issues) == 0, issues)`; the front-end `/ready` endpoint answers
200 `{"status": "ready"}` when ready, else 503 with the issues map. -/

/-- Outcome of the `httpx.get(f"{state_url}/ready")` probe: a response
with its status code and the parsed `status` field of its JSON body, or
a raised exception. -/
inductive StateApiProbe where
  | resp (status : Nat) (statusField : Option String)
  | exn (err : String)

/-- The `issues["state_api"]` entry produced by the probe branch of
`is_ready`, if any. -/
def stateApiIssue (state_url : String) (st : StateApiProbe) : List (String × String) :=
  match st with
  | .resp status statusField =>
      if status = 404 then [("state_api", "No /ready endpoint defined")]
      else if status ≠ 200 then [("state_api", "Status code " ++ toString status)]
      else if statusField ≠ some "ready" then [("state_api", "Reported not ready")]
      else []
  | .exn e => [("state_api", state_url ++ " not reachable: " ++ e)]

/-- Embedding of `RoutingController.is_ready`.  `grouping` is the
result of `grouping_strategy.is_ready()`, `groups` the snapshot from
`get_all_groups()`, `svc g` the result of
`deployment_platform.check_service_ready(g)`, and `st` the outcome of
the state-API probe at `state_url`. -/
def controller_is_ready (grouping : Bool × String) (groups : List String)
    (svc : String → Bool × String) (state_url : String) (st : StateApiProbe) :
    Bool × List (String × String) :=
  let i1 := if grouping.1 then [] else [("grouping_strategy", grouping.2)]
  let i2 := groups.filterMap
    (fun g => if (svc g).1 then none else some ("service:" ++ g, (svc g).2))
  let issues := i1 ++ i2 ++ stateApiIssue state_url st
  (issues.isEmpty, issues)

/-- `True` iff the state-API probe branch contributes no issue. -/
def stateApiOk (st : StateApiProbe) : Bool :=
  match st with
  | .resp status statusField => status = 200 && statusField = some "ready"
  | .exn _ => false

/-- Embedding of `readiness_check` in `routing_layer/app/main.py`:
HTTP status and issues map of the front-end `/ready` endpoint. -/
def readiness_check (grouping : Bool × String) (groups : List String)
    (svc : String → Bool × String) (state_url : String) (st : StateApiProbe) :
    Nat × List (String × String) :=
  let r := controller_is_ready grouping groups svc state_url st
  if r.1 then (200, []) else (503, r.2)

theorem stateApiIssue_eq_nil_iff (state_url : String) (st : StateApiProbe) :
    stateApiIssue state_url st = [] ↔ stateApiOk st = true := by
  cases st with
  | resp status statusField =>
    simp only [stateApiIssue, stateApiOk]
    by_cases h4 : status = 404
    · subst h4; simp
    · by_cases h2 : status = 200
      · subst h2
        by_cases hs : statusField = some "ready" <;> simp [hs]
      · simp [h4, h2]
  | exn e => simp [stateApiIssue, stateApiOk]

/-- **C6.** The controller's readiness result is `ready` exactly when
its issues map is empty; the issues map is empty exactly when the
registry is ready, every group instance's probe succeeds, and the state
API reports ready; each failing subcomponent contributes an entry under
its key (`"grouping_strategy"`, `"service:<group>"`, `"state_api"`);
and when not ready the front-end `/ready` endpoint returns 503 carrying
that issues map. -/
theorem controller_is_ready_spec (grouping : Bool × String) (groups : List String)
    (svc : String → Bool × String) (state_url : String) (st : StateApiProbe) :
    ((controller_is_ready grouping groups svc state_url st).1 = true ↔
      (controller_is_ready grouping groups svc state_url st).2 = []) ∧
    ((controller_is_ready grouping groups svc state_url st).2 = [] ↔
      grouping.1 = true ∧ (∀ g ∈ groups, (svc g).1 = true) ∧ stateApiOk st = true) ∧
    (grouping.1 = false →
      "grouping_strategy" ∈
        (controller_is_ready grouping groups svc state_url st).2.map Prod.fst) ∧
    (∀ g ∈ groups, (svc g).1 = false →
      "service:" ++ g ∈
        (controller_is_ready grouping groups svc state_url st).2.map Prod.fst) ∧
    (stateApiOk st = false →
      "state_api" ∈
        (controller_is_ready grouping groups svc state_url st).2.map Prod.fst) ∧
    ((controller_is_ready grouping groups svc state_url st).1 = false →
      readiness_check grouping groups svc state_url st =
        (503, (controller_is_ready grouping groups svc state_url st).2)) := by
  unfold controller_is_ready readiness_check
  simp only [List.isEmpty_iff, List.append_eq_nil, List.filterMap_eq_nil]
  refine ⟨by simp, ?_, ?_, ?_, ?_, ?_⟩
  · constructor
    · rintro ⟨⟨h1, h2⟩, h3⟩
      refine ⟨?_, ?_, (stateApiIssue_eq_nil_iff state_url st).mp h3⟩
      · by_cases hg : grouping.1
        · exact hg
        · rw [if_neg hg] at h1; cases h1
      · intro g hg
        have := h2 g hg
        by_cases hs : (svc g).1
        · exact hs
        · rw [if_neg hs] at this; cases this
    · rintro ⟨h1, h2, h3⟩
      refine ⟨⟨by simp [h1], ?_⟩, (stateApiIssue_eq_nil_iff state_url st).mpr h3⟩
      intro g hg
      simp [h2 g hg]
  · intro h1
    simp [h1]
  · intro g hg hs
    simp only [List.map_append, List.mem_append]
    left; right
    rw [List.mem_map]
    refine ⟨("service:" ++ g, (svc g).2), ?_, rfl⟩
    rw [List.mem_filterMap]
    exact ⟨g, hg, by simp [hs]⟩
  · intro hst
    have : stateApiIssue state_url st ≠ [] := by
      intro h
      rw [(stateApiIssue_eq_nil_iff state_url st).mp h] at hst
      cases hst
    rcases hi : stateApiIssue state_url st with _ | ⟨hd, tl⟩
    · exact absurd hi this
    · have hdk : hd.1 = "state_api" := by
        cases st with
        | resp status statusField =>
          simp only [stateApiIssue] at hi
          split at hi
          · cases hi; rfl
          · split at hi
            · cases hi; rfl
            · split at hi
              · cases hi; rfl
              · cases hi
        | exn e =>
          simp only [stateApiIssue] at hi
          cases hi; rfl
      simp [hdk]
  · intro h
    simp only [controller_is_ready]
    simp [h, List.append_assoc]
    intro h1 h2 hc
    rw [List.isEmpty_eq_false] at h
    exact h (by simp [h1, hc]; exact h2)

/-- Concrete instantiation of `controller_is_ready_spec`: one group
whose probe fails makes the controller not ready, puts
`"service:wc1"` in the issues map, and makes `/ready` answer 503. -/
theorem controller_is_ready_spec_witness :
    (controller_is_ready (true, "ok") ["wc1"] (fun _ => (false, "down")) "http://s"
        (StateApiProbe.resp 200 (some "ready"))).1 = false ∧
    "service:wc1" ∈ (controller_is_ready (true, "ok") ["wc1"]
        (fun _ => (false, "down")) "http://s"
        (StateApiProbe.resp 200 (some "ready"))).2.map Prod.fst ∧
    readiness_check (true, "ok") ["wc1"] (fun _ => (false, "down")) "http://s"
        (StateApiProbe.resp 200 (some "ready")) =
      (503, [("service:wc1", "down")]) := by
  have h := controller_is_ready_spec (true, "ok") ["wc1"] (fun _ => (false, "down"))
    "http://s" (StateApiProbe.resp 200 (some "ready"))
  refine ⟨by decide, ?_, ?_⟩
  · exact h.2.2.2.1 "wc1" (by decide) (by decide)
  · have := h.2.2.2.2.2 (by decide)
    rw [this]; decide

/-! ## Instance-name sanitisation (`docker_deployment_platform.py`,
`swarm_deployment_platform.py`)

Both backends compute
`re.sub(r"[^a-z0-9]+", "-", group_name.lower()).strip("-")` and prefix
the result with `"stream-api-group-"`.  The regex substitution replaces
every maximal run of characters outside `[a-z0-9]` by a single `-`;
`strip("-")` removes leading and trailing dashes.  Character classes
are expressed on code points: `[a-z]` is 97–122, `[0-9]` is 48–57,
`[A-Z]` is 65–90, `'-'` is 45. -/

/-- `c` is in the character class `[a-z0-9]`. -/
def isLowerAlnum (c : Char) : Bool :=
  (97 ≤ c.toNat && c.toNat ≤ 122) || (48 ≤ c.toNat && c.toNat ≤ 57)

/-- ASCII lowercasing: the effect of Python `str.lower()` on an ASCII
character (`A`–`Z` shifts by 32, everything else is fixed). -/
def asciiLower (c : Char) : Char :=
  if 65 ≤ c.toNat && c.toNat ≤ 90 then Char.ofNat (c.toNat + 32) else c

/-- `re.sub(r"[^a-z0-9]+", "-", ·)`: every maximal run of characters
outside `[a-z0-9]` becomes one `-`.  The flag records whether the
previous character was part of such a run. -/
def collapseAux (inRun : Bool) : List Char → List Char
  | [] => []
  | c :: cs =>
    if isLowerAlnum c then c :: collapseAux false cs
    else if inRun then collapseAux true cs
    else '-' :: collapseAux true cs

def collapseNonAlnum (l : List Char) : List Char :=
  collapseAux false l

/-- Python `str.strip("-")`. -/
def stripDashes (l : List Char) : List Char :=
  ((l.dropWhile (fun c => c = '-')).reverse.dropWhile (fun c => c = '-')).reverse

/-- `_sanitize_group_name` of both deployment backends. -/
def sanitize_group_name (group_name : String) : String :=
  ⟨stripDashes (collapseNonAlnum (group_name.data.map asciiLower))⟩

/-- `_container_name` (Docker) and `_service_name` (Swarm): the
instance name. -/
def container_name (group_name : String) : String :=
  "stream-api-group-" ++ sanitize_group_name group_name

/-- Python `str.lower()` on an ASCII string. -/
def pyLower (s : String) : String :=
  ⟨s.data.map asciiLower⟩

/-- `c` is an ASCII letter, a digit, or `'-'`. -/
def isNameChar (c : Char) : Bool :=
  (97 ≤ c.toNat && c.toNat ≤ 122) || (65 ≤ c.toNat && c.toNat ≤ 90) ||
    (48 ≤ c.toNat && c.toNat ≤ 57) || c.toNat = 45

theorem charOfNat_toNat (n : Nat) (h1 : 97 ≤ n) (h2 : n ≤ 122) :
    (Char.ofNat n).toNat = n := by
  have hv : n.isValidChar := Or.inl (by omega)
  rw [Char.ofNat, dif_pos hv]
  rw [Char.ofNatAux]
  rfl

theorem char_eq_dash_of_toNat (c : Char) (h : c.toNat = 45) : c = '-' := by
  have hval : c.val = 45 := by
    have h3 : ((45 : UInt32)).toNat = 45 := by decide
    exact UInt32.toNat.inj (by rw [show c.val.toNat = c.toNat from rfl, h, h3])
  exact Char.ext hval

theorem asciiLower_eq_dash_iff (c : Char) : asciiLower c = '-' ↔ c = '-' := by
  constructor
  · intro h
    unfold asciiLower at h
    by_cases hc : 65 ≤ c.toNat ∧ c.toNat ≤ 90
    · exfalso
      rw [if_pos (by simp [hc.1, hc.2])] at h
      have := congrArg Char.toNat h
      rw [charOfNat_toNat _ (by omega) (by omega)] at this
      simp [show ('-' : Char).toNat = 45 from rfl] at this
      omega
    · rwa [if_neg (by simpa using fun h1 h2 => hc ⟨h1, h2⟩)] at h
  · intro h
    subst h
    rfl

theorem asciiLower_nameChar (c : Char) (hc : isNameChar c = true) :
    isLowerAlnum (asciiLower c) = true ∨ asciiLower c = '-' := by
  simp only [isNameChar, Bool.or_eq_true, Bool.and_eq_true, decide_eq_true_eq] at hc
  rcases hc with ((haz | hAZ) | h09) | hdash
  · left
    have he : asciiLower c = c := by
      unfold asciiLower
      rw [if_neg (by simp; intro h1; omega)]
    rw [he]
    simp only [isLowerAlnum, Bool.or_eq_true, Bool.and_eq_true, decide_eq_true_eq]
    exact Or.inl haz
  · left
    have he : asciiLower c = Char.ofNat (c.toNat + 32) := by
      unfold asciiLower
      rw [if_pos (by simp [hAZ.1, hAZ.2])]
    rw [he]
    simp only [isLowerAlnum, Bool.or_eq_true, Bool.and_eq_true, decide_eq_true_eq]
    left
    rw [charOfNat_toNat _ (by omega) (by omega)]
    omega
  · left
    have he : asciiLower c = c := by
      unfold asciiLower
      rw [if_neg (by simp; intro h1; omega)]
    rw [he]
    simp only [isLowerAlnum, Bool.or_eq_true, Bool.and_eq_true, decide_eq_true_eq]
    exact Or.inr h09
  · right
    rw [asciiLower_eq_dash_iff]
    exact char_eq_dash_of_toNat c hdash

/-- On a string whose characters are all `[a-z0-9]` or `-` and where no
two dashes are adjacent, the regex substitution is the identity. -/
theorem collapseAux_false_eq_self (l : List Char)
    (hmem : ∀ c ∈ l, isLowerAlnum c = true ∨ c = '-')
    (hchain : l.Chain' (fun a b => ¬(a = '-' ∧ b = '-'))) :
    collapseAux false l = l := by
  induction l with
  | nil => rfl
  | cons c cs ih =>
    have hmemcs : ∀ x ∈ cs, isLowerAlnum x = true ∨ x = '-' :=
      fun x hx => hmem x (List.mem_cons_of_mem c hx)
    have hchaincs : cs.Chain' (fun a b => ¬(a = '-' ∧ b = '-')) := hchain.tail
    by_cases hc : isLowerAlnum c = true
    · simp only [collapseAux, if_pos hc]
      rw [ih hmemcs hchaincs]
    · have hdash : c = '-' := by
        rcases hmem c (List.mem_cons_self c cs) with h | h
        · exact absurd h hc
        · exact h
      subst hdash
      simp only [collapseAux, if_neg hc]
      rw [if_neg (by decide : ¬(false = true))]
      cases cs with
      | nil => rfl
      | cons d ds =>
        have hd : d ≠ '-' := by
          intro hd
          exact (List.chain'_cons.mp hchain).1 ⟨rfl, hd⟩
        have hdal : isLowerAlnum d = true := by
          rcases hmemcs d (List.mem_cons_self d ds) with h | h
          · exact h
          · exact absurd h hd
        have ihv := ih hmemcs hchaincs
        simp only [collapseAux, if_pos hdal] at ihv ⊢
        have h2 : collapseAux false ds = ds := by
          injection ihv
        rw [h2]

theorem dropWhile_dash_eq_self (l : List Char) (h : l.head? ≠ some '-') :
    l.dropWhile (fun c => c = '-') = l := by
  cases l with
  | nil => rfl
  | cons c cs =>
    have : c ≠ '-' := by
      intro hc
      exact h (by rw [hc]; rfl)
    rw [List.dropWhile_cons, if_neg (by simp [this])]

theorem stripDashes_eq_self (l : List Char) (hh : l.head? ≠ some '-')
    (hl : l.getLast? ≠ some '-') : stripDashes l = l := by
  unfold stripDashes
  rw [dropWhile_dash_eq_self l hh]
  rw [dropWhile_dash_eq_self l.reverse (by rwa [List.head?_reverse])]
  exact List.reverse_reverse l

/-- **C7, counterexample.** The claim — for every group name of ASCII
letters, digits and `-`, the instance name equals
`"stream-api-group-"` followed by the lowercased name — fails at
`"A--B"`: sanitisation collapses the doubled dash, producing
`"stream-api-group-a-b"`, not `"stream-api-group-a--b"`. -/
theorem container_name_counterexample :
    (∀ c ∈ "A--B".data, isNameChar c = true) ∧
      container_name "A--B" ≠ "stream-api-group-" ++ pyLower "A--B" := by
  constructor
  · decide
  · decide

/-- **C7, amended.** For every group name of ASCII letters, digits and
`-` in which no two dashes are adjacent and which neither starts nor
ends with a dash, the instance name produced by the deployment
backends' sanitisation equals `"stream-api-group-"` followed by the
group name lowercased.  (The counterexample forces the three dash
restrictions: sanitisation collapses dash runs and strips edge
dashes.) -/
theorem container_name_of_clean (g : String)
    (hchars : ∀ c ∈ g.data, isNameChar c = true)
    (hchain : g.data.Chain' (fun a b => ¬(a = '-' ∧ b = '-')))
    (hhead : g.data.head? ≠ some '-')
    (hlast : g.data.getLast? ≠ some '-') :
    container_name g = "stream-api-group-" ++ pyLower g := by
  unfold container_name sanitize_group_name pyLower collapseNonAlnum
  congr 1
  have hmem : ∀ c ∈ g.data.map asciiLower, isLowerAlnum c = true ∨ c = '-' := by
    intro c hc
    obtain ⟨c₀, hc₀, rfl⟩ := List.mem_map.mp hc
    exact asciiLower_nameChar c₀ (hchars c₀ hc₀)
  have hchain' : (g.data.map asciiLower).Chain' (fun a b => ¬(a = '-' ∧ b = '-')) := by
    rw [List.chain'_map]
    refine hchain.imp ?_
    intro a b hab ⟨ha, hb⟩
    exact hab ⟨(asciiLower_eq_dash_iff a).mp ha, (asciiLower_eq_dash_iff b).mp hb⟩
  have hhead' : (g.data.map asciiLower).head? ≠ some '-' := by
    rw [List.head?_map]
    intro h
    cases hd : g.data.head? with
    | none => rw [hd] at h; cases h
    | some c =>
      rw [hd] at h
      have : asciiLower c = '-' := by
        have := Option.map_eq_some'.mp h
        obtain ⟨x, hx, he⟩ := this
        cases hx
        exact he
      exact hhead (by rw [hd, (asciiLower_eq_dash_iff c).mp this])
  have hlast' : (g.data.map asciiLower).getLast? ≠ some '-' := by
    rw [List.getLast?_map]
    intro h
    cases hd : g.data.getLast? with
    | none => rw [hd] at h; cases h
    | some c =>
      rw [hd] at h
      have : asciiLower c = '-' := by
        have := Option.map_eq_some'.mp h
        obtain ⟨x, hx, he⟩ := this
        cases hx
        exact he
      exact hlast (by rw [hd, (asciiLower_eq_dash_iff c).mp this])
  rw [collapseAux_false_eq_self _ hmem hchain']
  rw [stripDashes_eq_self _ hhead' hlast']

/-- Concrete instantiation of `container_name_of_clean`: the group name
`"Work-Center1"` sanitises to the predicted instance name. -/
theorem container_name_of_clean_witness :
    container_name "Work-Center1" = "stream-api-group-work-center1" := by
  have h := container_name_of_clean "Work-Center1"
    (by decide) (by simp [List.chain'_cons]) (by decide) (by decide)
  rw [h]
  decide


/-! ## ksqlDB literal escaping (`unslevel_grouping_strategy.py`)

`escape_ksql_literal` doubles single quotes.  `create_derived_stream`
interpolates the group name into the statement in two string literals:
the `KAFKA_TOPIC` literal (via `_get_stream_name(group_name)`, *not*
escaped) and the `WHERE` comparison literal (escaped).
`self.grouping_level` is escaped once at construction.
`get_all_assets_in_group` escapes its literal;
`remove_derived_stream` contains no string literal.  The single-quote
character (code point 39) is written `sqChar` below. -/

/-- The single-quote character of the query language. -/
def sqChar : Char := '\x27'

/-- The single-quote character as a one-character string. -/
def sqStr : String := ⟨[sqChar]⟩

/-- `escape_ksql_literal`: `value.replace("'", "''")`. -/
def escape_ksql_literal (value : String) : String :=
  ⟨(value.data.map (fun c => if c = sqChar then [sqChar, sqChar] else [c])).join⟩

/-- `GroupingStrategy._get_stream_name`. -/
def get_stream_name (group_name : String) : String :=
  "asset_stream_" ++ group_name

/-- The text placed between the quotes of the `KAFKA_TOPIC` literal of
`create_derived_stream`: `f"{self._get_stream_name(group_name)}_topic"`,
with the raw group name. -/
def kafka_topic_literal (group_name : String) : String :=
  get_stream_name group_name ++ "_topic"

/-- Embedding of the statement built by `create_derived_stream`
(whitespace of the Python triple-quoted f-string elided; the argument
`grouping_level` is `self.grouping_level`, already escaped at
construction, and `assets_stream` is `settings.ksqldb_assets_stream`). -/
def create_derived_stream_statement (grouping_level assets_stream group_name : String) :
    String :=
  "CREATE STREAM IF NOT EXISTS " ++ get_stream_name group_name ++
    " WITH ( KAFKA_TOPIC=" ++ sqStr ++ kafka_topic_literal group_name ++ sqStr ++
    ", VALUE_FORMAT=" ++ sqStr ++ "JSON" ++ sqStr ++ " ) AS SELECT s.* FROM " ++
    assets_stream ++ " s JOIN asset_to_uns_map h ON s.asset_uuid = h.asset_uuid" ++
    " WHERE h.uns_levels[" ++ sqStr ++ grouping_level ++ sqStr ++ "] = " ++ sqStr ++
    escape_ksql_literal group_name ++ sqStr ++ ";"

/-- The statement as the escape discipline of the spec demands it: every
literal into which the group name is interpolated escaped, including
`KAFKA_TOPIC`.  Modelled from the spec: "any literal interpolated from
configuration or user input must double single quotes". -/
def create_derived_stream_statement_spec (grouping_level assets_stream group_name : String) :
    String :=
  "CREATE STREAM IF NOT EXISTS " ++ get_stream_name group_name ++
    " WITH ( KAFKA_TOPIC=" ++ sqStr ++ escape_ksql_literal (kafka_topic_literal group_name) ++
    sqStr ++ ", VALUE_FORMAT=" ++ sqStr ++ "JSON" ++ sqStr ++ " ) AS SELECT s.* FROM " ++
    assets_stream ++ " s JOIN asset_to_uns_map h ON s.asset_uuid = h.asset_uuid" ++
    " WHERE h.uns_levels[" ++ sqStr ++ grouping_level ++ sqStr ++ "] = " ++ sqStr ++
    escape_ksql_literal group_name ++ sqStr ++ ";"

/-- A single quote not immediately doubled occurs in the character
list. -/
def hasUndoubledQuote : List Char → Bool
  | [] => false
  | [c] => c = sqChar
  | c :: d :: rest =>
    if c = sqChar then (if d = sqChar then hasUndoubledQuote rest else true)
    else hasUndoubledQuote (d :: rest)

/-- A group name containing a single quote: `a'b`. -/
def gBad : String := ⟨['a', sqChar, 'b']⟩

/-- **C8.** The claim — every string literal into which the group name
is interpolated by `create_derived_stream` has the group name's single
quotes doubled — fails for the `KAFKA_TOPIC` literal: at group name
`a'b` that literal carries the quote raw (undoubled), the built
statement differs from the escaped statement the spec demands, while
the `WHERE` literal is properly escaped. -/
theorem kafka_topic_literal_unescaped :
    hasUndoubledQuote (kafka_topic_literal gBad).data = true ∧
      hasUndoubledQuote (escape_ksql_literal gBad).data = false ∧
      create_derived_stream_statement "workcenter" "enriched_assets_stream" gBad ≠
        create_derived_stream_statement_spec "workcenter" "enriched_assets_stream" gBad := by
  refine ⟨by decide, by decide, by decide⟩

/-! ## Asset-state pass-through (`router_asset_state.py`)

After resolving the state-API base URL (404 when it does not resolve),
`route_asset_state` forwards the request; on a response it returns a
`JSONResponse` with the upstream's status code and JSON body; an
`httpx.RequestError` raises HTTP 502 with detail
"Error contacting the State API."; any other exception raises HTTP 502
with detail "Unexpected error proxying to State API.". -/

/-- Outcome of the proxied `client.get(full_url)` call: an upstream
response (status code and JSON body), a transport error
(`httpx.RequestError`), or any other exception. -/
inductive UpstreamResult where
  | ok (status : Nat) (body : String)
  | transportError (e : String)
  | otherError (e : String)

/-- Response of the front-end `/asset_state` endpoint: either the
upstream body passed through, or an error object `{"detail": ...}`. -/
inductive StateResponse where
  | upstreamBody (status : Nat) (body : String)
  | errorDetail (status : Nat) (detail : String)
  deriving DecidableEq

/-- Embedding of `route_asset_state` after query filtering: `target`
is `get_state_api_url()` (`none` when unresolvable), `up` the outcome
of the forwarded request. -/
def route_asset_state (target : Option String) (up : UpstreamResult) : StateResponse :=
  match target with
  | none => StateResponse.errorDetail 404 "Asset State API not available."
  | some _ =>
    match up with
    | UpstreamResult.ok status body => StateResponse.upstreamBody status body
    | UpstreamResult.transportError _ =>
        StateResponse.errorDetail 502 "Error contacting the State API."
    | UpstreamResult.otherError _ =>
        StateResponse.errorDetail 502 "Unexpected error proxying to State API."

/-- **C9.** When the state-API URL resolves, the `/asset_state` response
carries the upstream's status code and body verbatim, and every
transport error yields status 502 with detail
"Error contacting the State API.". -/
theorem route_asset_state_spec (target : Option String) (up : UpstreamResult)
    (hres : target ≠ none) :
    (∀ status body, up = UpstreamResult.ok status body →
      route_asset_state target up = StateResponse.upstreamBody status body) ∧
    (∀ e, up = UpstreamResult.transportError e →
      route_asset_state target up =
        StateResponse.errorDetail 502 "Error contacting the State API.") := by
  rcases target with _ | url
  · exact absurd rfl hres
  · constructor
    · rintro status body rfl
      rfl
    · rintro e rfl
      rfl

/-- Concrete instantiation of `route_asset_state_spec`: a resolved URL
passes a 200 body through and maps a transport error to the 502
detail. -/
theorem route_asset_state_spec_witness :
    route_asset_state (some "http://state-api") (UpstreamResult.ok 200 "body") =
      StateResponse.upstreamBody 200 "body" ∧
    route_asset_state (some "http://state-api") (UpstreamResult.transportError "timeout") =
      StateResponse.errorDetail 502 "Error contacting the State API." := by
  constructor
  · exact (route_asset_state_spec (some "http://state-api")
      (UpstreamResult.ok 200 "body") (by simp)).1 200 "body" rfl
  · exact (route_asset_state_spec (some "http://state-api")
      (UpstreamResult.transportError "timeout") (by simp)).2 "timeout" rfl

end OpenFactory
